import Mathlib

/-!
Verification development for the backup-and-restore subsystem of the
supervisor repository.  The repository ships only the subsystem's tests
(src/tests/api/test_backups.py); the backup manager, freeze coordinator,
location resolver, archive codec and job lock themselves are not under
src/.  Each operation below is therefore modelled from the specification
(spec.md sections 3-7), with the shipped tests taken as authoritative
where they pin behaviour down further (notably the treatment of an
explicit null location in test_backup_to_location).
-/

namespace Supervisor

/-- Modelled from the spec: backup `type` enum {FULL, PARTIAL} (spec section 3). -/
inductive BackupType where
  | FULL
  | PARTIAL
deriving DecidableEq, Repr

/-- Modelled from the spec: the supervised system's operating state
{RUNNING, FREEZE} driven by the freeze coordinator (spec section 4.3). -/
inductive CoreState where
  | RUNNING
  | FREEZE
deriving DecidableEq, Repr

/-- Modelled from the spec: the command channel to the supervised
application supports exactly two messages, begin quiesce and end
quiesce (spec section 6); the tests transport them as backup/start
and backup/end. -/
inductive Command where
  | beginQuiesce
  | endQuiesce
deriving DecidableEq, Repr

/-- Modelled from the spec: the error taxonomy of section 7, plus the
write failure surfaced by the archive codec and the option-validation
failure of set_days_until_stale. -/
inductive BackupError where
  | JobAlreadyInProgress
  | UnknownLocation
  | InsufficientSpace
  | EmptySelection
  | CorruptArchive
  | InvalidPassphrase
  | SlugNotFound
  | RestoreIncomplete
  | WriteFailed
  | AlreadyFrozen
  | InvalidOptions
deriving DecidableEq, Repr

/-- Modelled from the spec: the freeze coordinator's state — the
supervised system's operating state plus the ordered log of commands
sent over the channel to the supervised application (spec section 4.3). -/
structure FreezeState where
  core : CoreState
  sent : List Command
deriving DecidableEq, Repr

/-- Modelled from the spec (section 4.3): freeze sends the begin-quiesce
command and moves RUNNING to FREEZE; a freeze request while already in
FREEZE is rejected, not queued. -/
def freeze (s : FreezeState) : Except BackupError FreezeState :=
  match s.core with
  | .RUNNING => .ok { core := .FREEZE, sent := s.sent ++ [.beginQuiesce] }
  | .FREEZE => .error .AlreadyFrozen

/-- Modelled from the spec (section 4.3): thaw sends the end-quiesce
command and moves FREEZE back to RUNNING; thawing an already-RUNNING
system is a no-op, not an error. -/
def thaw (s : FreezeState) : FreezeState :=
  match s.core with
  | .FREEZE => { core := .RUNNING, sent := s.sent ++ [.endQuiesce] }
  | .RUNNING => s

/-- Modelled from the spec: a mount, referenced by identity, with a
usage tag that may equal backup (spec section 3). -/
structure Mount where
  name : String
  usage : String
deriving DecidableEq, Repr

/-- Modelled from the spec: a concrete archive destination directory —
the local default store or a named mount's resolved directory
(spec sections 4.2 and 6). -/
inductive Dir where
  | localStore
  | mountDir (name : String)
deriving DecidableEq, Repr

/-- An on-disk file: a directory and a file name inside it. -/
abbrev FsPath := Dir × String

/-- Modelled from the spec: the content manifest of a backup
(spec section 3). -/
structure Content where
  homeassistant : Bool
  addons : List String
  folders : List String
  version : String
deriving DecidableEq, Repr

/-- Modelled from the spec: the Backup entity (spec section 3).  The
field is_protected renders the spec's protected flag (a Lean keyword). -/
structure Backup where
  slug : String
  name : String
  date : Nat
  type : BackupType
  content : Content
  is_protected : Bool
  location : Option String
  size : Nat
  homeassistant_exclude_database : Bool
  pinned : Bool
deriving DecidableEq, Repr

/-- Modelled from the spec: the backup manager's state (spec section 3)
together with the collaborating pieces the operations touch — the job
lock, the freeze coordinator, the committed archive files on disk, the
persisted-metadata save counter, the recorded application-state backup
calls (second argument of each call), the global
homeassistant backups_exclude_database setting, free-space and
source-size figures for the advisory space check, the current clock and
a fresh-slug counter. -/
structure ManagerState where
  backups : List Backup
  days_until_stale : Nat
  default_backup_mount : Option String
  mounts : List Mount
  lockHeld : Bool
  freezer : FreezeState
  files : List FsPath
  saveCount : Nat
  haBackupCalls : List Bool
  backups_exclude_database : Bool
  freeSpace : Nat
  sourceSize : Nat
  now : Nat
  nextId : Nat
  haVersion : String
deriving DecidableEq, Repr

/-- Modelled from the spec: a backup-creation request (spec section 4.5
and the control API of section 6).  The location field distinguishes the
three request shapes the tests exercise: none — the request omits the
location; some none — an explicit null location; some (some m) — a named
mount. -/
structure CreateRequest where
  type : BackupType
  name : String
  homeassistant : Bool
  addons : List String
  folders : List String
  location : Option (Option String)
  passphrase : Option String
  homeassistant_exclude_database : Bool
deriving DecidableEq, Repr

/-- Modelled from the spec (section 4.5): a PARTIAL request must select
at least one of application state, add-ons or folders. -/
def validSelection (req : CreateRequest) : Bool :=
  match req.type with
  | .FULL => true
  | .PARTIAL => req.homeassistant || !req.addons.isEmpty || !req.folders.isEmpty

/-- Modelled from the spec (section 3): FULL implies the entire
supervised system state, so application state is always included;
PARTIAL includes it only when selected. -/
def includesHomeAssistant (req : CreateRequest) : Bool :=
  match req.type with
  | .FULL => true
  | .PARTIAL => req.homeassistant

/-- Modelled from the spec (section 4.2), amended by the shipped tests:
an omitted location uses default_backup_mount when set, else the local
default store; an explicit null location selects the local default store
even when a default mount is set (test_backup_to_location); a named
location must match a backup-usage-tagged mount, else UnknownLocation. -/
def resolveDir (mounts : List Mount) (defaultMount : Option String) :
    Option (Option String) → Except BackupError Dir
  | none =>
    match defaultMount with
    | some m => .ok (.mountDir m)
    | none => .ok .localStore
  | some none => .ok .localStore
  | some (some name) =>
    if mounts.any (fun m => m.name == name && m.usage == "backup") then
      .ok (.mountDir name)
    else
      .error .UnknownLocation

/-- Modelled from the spec (section 4.2): the location resolver —
resolveDir followed by the advisory free-space check against the
caller-supplied size estimate. -/
def resolve (s : ManagerState) (location : Option (Option String)) :
    Except BackupError Dir :=
  match resolveDir s.mounts s.default_backup_mount location with
  | .error e => .error e
  | .ok dir =>
    if s.freeSpace < s.sourceSize then .error .InsufficientSpace else .ok dir

/-- The logical location recorded on a Backup entity for a resolved
directory (spec section 3: local default store or a named mount). -/
def locationOfDir : Dir → Option String
  | .localStore => none
  | .mountDir m => some m

/-- The directory a Backup's archive lives in, from its recorded
location. -/
def dirOfLocation : Option String → Dir
  | none => .localStore
  | some m => .mountDir m

/-- Modelled from the spec (section 6): one archive file per backup
under the resolved location directory, named by slug. -/
def archiveName (slug : String) : String := slug ++ ".tar"

/-- Modelled from the spec (section 4.1): the archive codec's write.  It
streams into a temporary path colocated with the destination directory
and commits with a single rename on success; a failure during streaming
removes the temporary file, leaving the destination directory free of
partial files.  The ok flag is the oracle for whether streaming
succeeds. -/
def codecWrite (fs : List FsPath) (dir : Dir) (fname : String) (ok : Bool) :
    List FsPath × Except BackupError Unit :=
  let tmp : FsPath := (dir, fname ++ ".tmp")
  let streaming := tmp :: fs
  if ok then
    ((dir, fname) :: streaming.erase tmp, .ok ())
  else
    (streaming.erase tmp, .error .WriteFailed)

/-- Modelled from the spec: slugs are opaque identifiers assigned at
creation; a counter delivers a fresh one per creation. -/
def freshSlug (s : ManagerState) : String := "b" ++ toString s.nextId

/-- Modelled from the spec (section 4.5): the body of create once the
job lock is held — resolve the location, quiesce the supervised
application when application state is included (recording the
application-state backup call and the database-exclusion decision, the
per-request flag or-ed with the global setting as tests
test_api_backup_exclude_database pin down), write the archive through
the codec, thaw unconditionally, and on success insert the Backup into
the index and persist metadata; the lock is released on every exit
path.  The writeOk flag is the oracle for whether archive streaming
succeeds. -/
def createLocked (s : ManagerState) (req : CreateRequest) (writeOk : Bool) :
    ManagerState × Except BackupError Backup :=
  match resolve s req.location with
  | .error e => ({ s with lockHeld := false }, .error e)
  | .ok dir =>
    let slug := freshSlug s
    let incHA := includesHomeAssistant req
    let excludeDb := req.homeassistant_exclude_database || s.backups_exclude_database
    match (if incHA then freeze s.freezer else .ok s.freezer) with
    | .error e => ({ s with lockHeld := false }, .error e)
    | .ok fz =>
      let s1 := { s with
        freezer := fz
        haBackupCalls :=
          if incHA then excludeDb :: s.haBackupCalls else s.haBackupCalls }
      let written := codecWrite s1.files dir (archiveName slug) writeOk
      let s2 := { s1 with
        files := written.1
        freezer := if incHA then thaw s1.freezer else s1.freezer }
      match written.2 with
      | .error e => ({ s2 with lockHeld := false }, .error e)
      | .ok _ =>
        let b : Backup := {
          slug := slug
          name := req.name
          date := s.now
          type := req.type
          content := {
            homeassistant := incHA
            addons := req.addons
            folders := req.folders
            version := s.haVersion }
          is_protected := req.passphrase.isSome
          location := locationOfDir dir
          size := s.sourceSize
          homeassistant_exclude_database := incHA && excludeDb
          pinned := false }
        ({ s2 with
            lockHeld := false
            backups := b :: s2.backups
            nextId := s.nextId + 1
            saveCount := s2.saveCount + 1 }, .ok b)

/-- Modelled from the spec (section 4.5): create validates the
selection, then acquires the job lock — failing immediately with
JobAlreadyInProgress when it is already held (section 4.4) — and runs
the locked body. -/
def create (s : ManagerState) (req : CreateRequest) (writeOk : Bool) :
    ManagerState × Except BackupError Backup :=
  if !validSelection req then
    (s, .error .EmptySelection)
  else if s.lockHeld then
    (s, .error .JobAlreadyInProgress)
  else
    createLocked { s with lockHeld := true } req writeOk

/-- Modelled from the spec (section 5): the interleaving the job lock
must exclude — request r1 passes validation and acquires the lock, a
second full request r2 arrives while the lock is held, then r1's locked
body runs to completion.  Returns the final state, r1's result and r2's
result. -/
def createConcurrent (s : ManagerState) (r1 r2 : CreateRequest)
    (writeOk : Bool) :
    ManagerState × Except BackupError Backup × Except BackupError Backup :=
  let afterAcquire := { s with lockHeld := true }
  let second := create afterAcquire r2 true
  let first := createLocked second.1 r1 writeOk
  (first.1, first.2, second.2)

/-- Modelled from the spec (section 6): info(slug) looks the backup up
in the manager's index. -/
def info (s : ManagerState) (slug : String) : Option Backup :=
  s.backups.find? (fun b => b.slug == slug)

/-- Modelled from the spec (section 6): the days_until_stale value
info() reports for the manager. -/
def info_days_until_stale (s : ManagerState) : Nat := s.days_until_stale

/-- Modelled from the spec (section 4.5): restore acquires the job
lock, looks the slug up (SlugNotFound when unknown), requires a
passphrase for a protected archive, extracts (the extractOk flag is the
oracle for extraction), reporting a mid-extraction failure as
RestoreIncomplete; the lock is released on every exit path. -/
def restore (s : ManagerState) (slug : String) (pass : Option String)
    (extractOk : Bool) : ManagerState × Except BackupError Unit :=
  if s.lockHeld then
    (s, .error .JobAlreadyInProgress)
  else
    match s.backups.find? (fun b => b.slug == slug) with
    | none => (s, .error .SlugNotFound)
    | some b =>
      if b.is_protected && pass.isNone then
        (s, .error .InvalidPassphrase)
      else if extractOk then
        (s, .ok ())
      else
        (s, .error .RestoreIncomplete)

/-- Modelled from the spec (section 4.5): remove(slug) deletes the
archive file and then the index entry; a slug not present in the index
fails with SlugNotFound; deleting an archive file that is already
absent is not an error (the file-system erase of an absent path leaves
the file list unchanged), so such a removal still succeeds. -/
def remove (s : ManagerState) (slug : String) :
    ManagerState × Except BackupError Unit :=
  match s.backups.find? (fun b => b.slug == slug) with
  | none => (s, .error .SlugNotFound)
  | some b =>
    ({ s with
        files := s.files.erase (dirOfLocation b.location, archiveName slug)
        backups := s.backups.filter (fun x => x.slug != slug)
        saveCount := s.saveCount + 1 }, .ok ())

/-- Modelled from the spec (section 4.5): set_days_until_stale(n)
validates n > 0, updates the retention threshold and persists
(save_data once per successful call). -/
def set_days_until_stale (s : ManagerState) (n : Int) :
    ManagerState × Except BackupError Unit :=
  if 0 < n then
    ({ s with days_until_stale := n.toNat, saveCount := s.saveCount + 1 },
     .ok ())
  else
    (s, .error .InvalidOptions)

/-- The most recent creation date among the known backups. -/
def mostRecentDate (bs : List Backup) : Nat :=
  bs.foldr (fun b acc => max b.date acc) 0

/-- Modelled from the spec (section 4.5): a backup the retention policy
removes — not explicitly pinned, now - date > days_until_stale, and not
the most recent backup (never removed even if stale). -/
def retentionRemovable (s : ManagerState) (b : Backup) : Bool :=
  !b.pinned && decide (s.days_until_stale < s.now - b.date)
    && decide (b.date ≠ mostRecentDate s.backups)

/-- Modelled from the spec (section 4.5): apply_retention_policy
removes the stale non-pinned backups (sparing the most recent), deletes
their archive files, persists, and returns the ordered sequence of
removed slugs. -/
def apply_retention_policy (s : ManagerState) : ManagerState × List String :=
  let removed := s.backups.filter (retentionRemovable s)
  ({ s with
      backups := s.backups.filter (fun b => !retentionRemovable s b)
      files := s.files.filter (fun f =>
        !removed.any (fun b => (dirOfLocation b.location, archiveName b.slug) == f))
      saveCount := s.saveCount + 1 },
   removed.map (fun b => b.slug))

/-- Modelled from the spec (section 6): the control API's freeze()
call, manual freeze sharing the coordinator's state. -/
def managerFreeze (s : ManagerState) : ManagerState × Except BackupError Unit :=
  match freeze s.freezer with
  | .ok f => ({ s with freezer := f }, .ok ())
  | .error e => (s, .error e)

/-- Modelled from the spec (section 6): the control API's thaw() call,
manual thaw sharing the coordinator's state; always succeeds. -/
def managerThaw (s : ManagerState) : ManagerState × Except BackupError Unit :=
  ({ s with freezer := thaw s.freezer }, .ok ())

/-! Concrete fixture states, mirroring the setups of the shipped tests:
a RUNNING system, days_until_stale 30, one backup-usage mount named
backup_test configured as the default backup mount, ample free space. -/

/-- A RUNNING freeze coordinator with an empty command log. -/
def fz0 : FreezeState := { core := .RUNNING, sent := [] }

/-- The backup-usage mount of the tests. -/
def mount0 : Mount := { name := "backup_test", usage := "backup" }

/-- Base manager state for concrete runs. -/
def s0 : ManagerState := {
  backups := []
  days_until_stale := 30
  default_backup_mount := some "backup_test"
  mounts := [mount0]
  lockHeld := false
  freezer := fz0
  files := []
  saveCount := 0
  haBackupCalls := []
  backups_exclude_database := false
  freeSpace := 5000
  sourceSize := 10
  now := 100
  nextId := 0
  haVersion := "2023.9.0" }

/-- A full-backup request with no location given. -/
def reqFull : CreateRequest := {
  type := .FULL
  name := "Mount test"
  homeassistant := false
  addons := []
  folders := []
  location := none
  passphrase := none
  homeassistant_exclude_database := false }

/-! Helper lemmas characterising the operations' behaviour; the claim
theorems below are assembled from these. -/

/-- A successful createLocked run resolved its location, inserted the
new Backup at the head of the index, committed exactly one new archive
file named by the fresh slug in the resolved directory, recorded the
application-state backup call when application state was included, and
released the lock. -/
theorem createLocked_ok_spec (s : ManagerState) (req : CreateRequest) (w : Bool)
    (s' : ManagerState) (b : Backup) (h : createLocked s req w = (s', .ok b)) :
    ∃ dir, resolve s req.location = .ok dir ∧
      b.slug = freshSlug s ∧
      b.type = req.type ∧
      b.content.homeassistant = includesHomeAssistant req ∧
      b.location = locationOfDir dir ∧
      s'.backups = b :: s.backups ∧
      s'.files = (dir, archiveName (freshSlug s)) :: s.files ∧
      s'.haBackupCalls =
        (if includesHomeAssistant req then
          (req.homeassistant_exclude_database || s.backups_exclude_database)
            :: s.haBackupCalls
        else s.haBackupCalls) ∧
      s'.lockHeld = false ∧
      s'.saveCount = s.saveCount + 1 := by
  cases w with
  | false =>
    simp only [createLocked, codecWrite, if_false, if_true] at h
    split at h
    · simp at h
    · split at h <;> simp at h
  | true =>
    simp only [createLocked, codecWrite, if_false, if_true] at h
    split at h
    · simp at h
    next dir hres =>
      split at h
      · simp at h
      next fz hfz =>
        rw [Prod.mk.injEq] at h
        obtain ⟨hs, hb⟩ := h
        simp only [Except.ok.injEq] at hb
        subst hs
        subst hb
        refine ⟨dir, hres, rfl, rfl, rfl, rfl, rfl, ?_, rfl, rfl, rfl⟩
        simp [List.erase_cons_head]

/-- A failing createLocked run leaves the index, the committed archive
files and the persisted metadata untouched and releases the lock. -/
theorem createLocked_err_spec (s : ManagerState) (req : CreateRequest) (w : Bool)
    (s' : ManagerState) (e : BackupError)
    (h : createLocked s req w = (s', .error e)) :
    s'.backups = s.backups ∧ s'.files = s.files ∧
      s'.saveCount = s.saveCount ∧ s'.lockHeld = false := by
  cases w with
  | false =>
    simp only [createLocked, codecWrite, if_false, if_true] at h
    split at h
    · rw [Prod.mk.injEq] at h
      obtain ⟨hs, _⟩ := h
      subst hs
      exact ⟨rfl, rfl, rfl, rfl⟩
    · split at h
      · rw [Prod.mk.injEq] at h
        obtain ⟨hs, _⟩ := h
        subst hs
        exact ⟨rfl, rfl, rfl, rfl⟩
      · rw [Prod.mk.injEq] at h
        obtain ⟨hs, _⟩ := h
        subst hs
        refine ⟨rfl, ?_, rfl, rfl⟩
        simp [List.erase_cons_head]
  | true =>
    simp only [createLocked, codecWrite, if_false, if_true] at h
    split at h
    · rw [Prod.mk.injEq] at h
      obtain ⟨hs, _⟩ := h
      subst hs
      exact ⟨rfl, rfl, rfl, rfl⟩
    · split at h
      · rw [Prod.mk.injEq] at h
        obtain ⟨hs, _⟩ := h
        subst hs
        exact ⟨rfl, rfl, rfl, rfl⟩
      · simp at h

/-- createLocked never reads the lock flag of its input state, so the
record update taking the lock does not change its result. -/
theorem createLocked_lock_irrel (s : ManagerState) (req : CreateRequest)
    (w : Bool) :
    createLocked { s with lockHeld := true } req w = createLocked s req w := rfl

/-- A successful create run passed validation, found the lock free, and
behaved as createLocked_ok_spec describes. -/
theorem create_ok_spec (s : ManagerState) (req : CreateRequest) (w : Bool)
    (s' : ManagerState) (b : Backup) (h : create s req w = (s', .ok b)) :
    validSelection req = true ∧ s.lockHeld = false ∧
    ∃ dir, resolve s req.location = .ok dir ∧
      b.slug = freshSlug s ∧
      b.type = req.type ∧
      b.content.homeassistant = includesHomeAssistant req ∧
      b.location = locationOfDir dir ∧
      s'.backups = b :: s.backups ∧
      s'.files = (dir, archiveName (freshSlug s)) :: s.files ∧
      s'.haBackupCalls =
        (if includesHomeAssistant req then
          (req.homeassistant_exclude_database || s.backups_exclude_database)
            :: s.haBackupCalls
        else s.haBackupCalls) ∧
      s'.lockHeld = false ∧
      s'.saveCount = s.saveCount + 1 := by
  unfold create at h
  split at h
  · simp at h
  next hval =>
    split at h
    · simp at h
    next hlock =>
      have h' : createLocked s req w = (s', .ok b) :=
        (createLocked_lock_irrel s req w) ▸ h
      refine ⟨?_, ?_, createLocked_ok_spec s req w s' b h'⟩
      · simpa using hval
      · simpa using hlock

/-- A failing create run leaves the index, the committed archive files,
the persisted metadata and the lock flag exactly as they were. -/
theorem create_err_spec (s : ManagerState) (req : CreateRequest) (w : Bool)
    (s' : ManagerState) (e : BackupError)
    (h : create s req w = (s', .error e)) :
    s'.backups = s.backups ∧ s'.files = s.files ∧
      s'.saveCount = s.saveCount ∧ s'.lockHeld = s.lockHeld := by
  unfold create at h
  split at h
  · rw [Prod.mk.injEq] at h
    obtain ⟨hs, _⟩ := h
    subst hs
    exact ⟨rfl, rfl, rfl, rfl⟩
  next hval =>
    split at h
    next hlock =>
      rw [Prod.mk.injEq] at h
      obtain ⟨hs, _⟩ := h
      subst hs
      exact ⟨rfl, rfl, rfl, rfl⟩
    next hlock =>
      have h' : createLocked s req w = (s', .error e) :=
        (createLocked_lock_irrel s req w) ▸ h
      have spec := createLocked_err_spec s req w s' e h'
      refine ⟨spec.1, spec.2.1, spec.2.2.1, ?_⟩
      rw [spec.2.2.2]
      simpa using (Bool.not_eq_true _).mp (by simpa using hlock) |>.symm

/-- create with the lock already held fails immediately with
JobAlreadyInProgress and changes nothing (for a request that passes
validation, which create checks first). -/
theorem create_locked_fails (s : ManagerState) (req : CreateRequest) (w : Bool)
    (hl : s.lockHeld = true) (hv : validSelection req = true) :
    create s req w = (s, .error .JobAlreadyInProgress) := by
  simp [create, hl, hv]

/-- restore with the lock already held fails immediately with
JobAlreadyInProgress and changes nothing. -/
theorem restore_locked_fails (s : ManagerState) (slug : String)
    (pass : Option String) (xo : Bool) (hl : s.lockHeld = true) :
    restore s slug pass xo = (s, .error .JobAlreadyInProgress) := by
  simp [restore, hl]

/-- restore returns its input state on every path. -/
theorem restore_state_id (s : ManagerState) (slug : String)
    (pass : Option String) (xo : Bool) : (restore s slug pass xo).1 = s := by
  unfold restore
  split
  · rfl
  · split
    · rfl
    · split
      · rfl
      · split <;> rfl

/-- create preserves the lock flag across every exit path. -/
theorem create_lockHeld (s : ManagerState) (req : CreateRequest) (w : Bool) :
    (create s req w).1.lockHeld = s.lockHeld := by
  rcases hr : create s req w with ⟨s', r⟩
  rcases r with e | b
  · exact (create_err_spec s req w s' e hr).2.2.2
  · have spec := create_ok_spec s req w s' b hr
    rw [spec.2.2.choose_spec.2.2.2.2.2.2.2.2.1, spec.2.1]

/-- thaw always lands in RUNNING. -/
theorem thaw_core (s : FreezeState) : (thaw s).core = .RUNNING := by
  unfold thaw
  split
  · rfl
  next heq => exact heq

/-- thaw of a RUNNING coordinator is the identity. -/
theorem thaw_of_running (s : FreezeState) (h : s.core = .RUNNING) :
    thaw s = s := by
  unfold thaw
  split
  next heq => rw [h] at heq; cases heq
  next => rfl

/-! The claim theorems. -/

/-- C3: a freeze() call from the RUNNING state succeeds, leaves the
supervised system in FREEZE and sends exactly the begin-quiesce command
to the supervised application; a subsequent thaw() call succeeds,
returns the system to RUNNING and sends the end-quiesce command. -/
theorem freeze_thaw_state_and_commands (s : ManagerState)
    (h : s.freezer.core = .RUNNING) :
    (managerFreeze s).2 = .ok () ∧
    (managerFreeze s).1.freezer.core = .FREEZE ∧
    (managerFreeze s).1.freezer.sent = s.freezer.sent ++ [.beginQuiesce] ∧
    (managerThaw (managerFreeze s).1).2 = .ok () ∧
    (managerThaw (managerFreeze s).1).1.freezer.core = .RUNNING ∧
    (managerThaw (managerFreeze s).1).1.freezer.sent =
      s.freezer.sent ++ [.beginQuiesce, .endQuiesce] := by
  have hfz : freeze s.freezer =
      .ok { core := .FREEZE, sent := s.freezer.sent ++ [.beginQuiesce] } := by
    unfold freeze
    split
    · rfl
    next heq => rw [h] at heq; cases heq
  simp [managerFreeze, hfz, managerThaw, thaw]

/-- C3 witness. -/
theorem freeze_thaw_state_and_commands_witness :
    (managerFreeze s0).2 = .ok () ∧
    (managerFreeze s0).1.freezer.core = .FREEZE ∧
    (managerFreeze s0).1.freezer.sent = s0.freezer.sent ++ [.beginQuiesce] ∧
    (managerThaw (managerFreeze s0).1).2 = .ok () ∧
    (managerThaw (managerFreeze s0).1).1.freezer.core = .RUNNING ∧
    (managerThaw (managerFreeze s0).1).1.freezer.sent =
      s0.freezer.sent ++ [.beginQuiesce, .endQuiesce] :=
  freeze_thaw_state_and_commands s0 rfl

/-- C4: thaw() is idempotent — it always succeeds, thawing an
already-RUNNING system is a no-op that leaves the state RUNNING, and a
second thaw() has the same end state as a single one. -/
theorem thaw_idempotent (s : ManagerState) :
    (managerThaw s).2 = .ok () ∧
    (managerThaw (managerThaw s).1).1 = (managerThaw s).1 ∧
    (managerThaw s).1.freezer.core = .RUNNING ∧
    (s.freezer.core = .RUNNING → (managerThaw s).1 = s) := by
  refine ⟨rfl, ?_, thaw_core s.freezer, ?_⟩
  · show ({ s with freezer := thaw (thaw s.freezer) } : ManagerState) = _
    rw [thaw_of_running (thaw s.freezer) (thaw_core s.freezer)]
    rfl
  · intro h
    show ({ s with freezer := thaw s.freezer } : ManagerState) = s
    rw [thaw_of_running s.freezer h]

/-- C4 witness. -/
theorem thaw_idempotent_witness :
    (managerThaw s0).2 = .ok () ∧
    (managerThaw (managerThaw s0).1).1 = (managerThaw s0).1 ∧
    (managerThaw s0).1.freezer.core = .RUNNING ∧
    (s0.freezer.core = .RUNNING → (managerThaw s0).1 = s0) :=
  thaw_idempotent s0

/-- C5: set_days_until_stale(n) validates n > 0; a valid n updates the
threshold so info() reports it and invokes save_data exactly once; an
invalid n fails and changes nothing. -/
theorem set_days_until_stale_spec :
    (∀ (s : ManagerState) (n : Int), 0 < n →
      (set_days_until_stale s n).2 = .ok () ∧
      info_days_until_stale (set_days_until_stale s n).1 = n.toNat ∧
      (set_days_until_stale s n).1.saveCount = s.saveCount + 1) ∧
    (∀ (s : ManagerState) (n : Int), ¬0 < n →
      set_days_until_stale s n = (s, .error .InvalidOptions)) := by
  constructor
  · intro s n h
    simp [set_days_until_stale, h, info_days_until_stale]
  · intro s n h
    simp [set_days_until_stale, h]

/-- C5 witness: setting 10 as in test_options. -/
theorem set_days_until_stale_spec_witness :
    (set_days_until_stale s0 10).2 = .ok () ∧
    info_days_until_stale (set_days_until_stale s0 10).1 = (10 : Int).toNat ∧
    (set_days_until_stale s0 10).1.saveCount = s0.saveCount + 1 :=
  set_days_until_stale_spec.1 s0 10 (by decide)

/-- C8 counterexample: the claim asserts that removal of a slug absent
from the index both fails with SlugNotFound and is treated as success;
at the concrete absent slug ghost, remove fails with SlugNotFound and is
not a success. -/
theorem remove_absent_slug_counterexample :
    (remove s0 "ghost").2 = .error .SlugNotFound ∧
    (remove s0 "ghost").2 ≠ .ok () := by
  constructor
  · rfl
  · intro h
    cases h

/-- C8 (amended): remove(slug) deletes the archive file and then the
index entry and succeeds for a slug present in the index — also when
the archive file is already absent from disk, which is still treated as
success — while a slug not present in the index fails with SlugNotFound
and changes nothing. -/
theorem remove_spec_amended :
    (∀ (s : ManagerState) (slug : String),
      s.backups.find? (fun x => x.slug == slug) = none →
      remove s slug = (s, .error .SlugNotFound)) ∧
    (∀ (s : ManagerState) (slug : String) (b : Backup),
      s.backups.find? (fun x => x.slug == slug) = some b →
      (remove s slug).2 = .ok () ∧
      (remove s slug).1.backups = s.backups.filter (fun x => x.slug != slug) ∧
      (remove s slug).1.files =
        s.files.erase (dirOfLocation b.location, archiveName slug)) ∧
    (∀ (s : ManagerState) (slug : String) (b : Backup),
      s.backups.find? (fun x => x.slug == slug) = some b →
      (dirOfLocation b.location, archiveName slug) ∉ s.files →
      (remove s slug).2 = .ok () ∧ (remove s slug).1.files = s.files) := by
  refine ⟨fun s slug h => ?_, fun s slug b h => ?_, fun s slug b h hf => ?_⟩
  · simp [remove, h]
  · simp [remove, h]
  · refine ⟨?_, ?_⟩
    · simp [remove, h]
    · simp [remove, h, List.erase_of_not_mem hf]

/-- The Backup entity produced by the concrete run
create s0 reqFull true. -/
def b0def : Backup := {
  slug := "b0"
  name := "Mount test"
  date := 100
  type := .FULL
  content := {
    homeassistant := true
    addons := []
    folders := []
    version := "2023.9.0" }
  is_protected := false
  location := some "backup_test"
  size := 10
  homeassistant_exclude_database := false
  pinned := false }

/-- A minimal backup fixture for the retention example. -/
def agedBackup (slug : String) (date : Nat) : Backup := {
  slug := slug
  name := slug
  date := date
  type := .FULL
  content := {
    homeassistant := true
    addons := []
    folders := []
    version := "2023.9.0" }
  is_protected := false
  location := none
  size := 0
  homeassistant_exclude_database := false
  pinned := false }

/-- The retention example of the spec: backups aged 5, 40 and 90 days
(dates 95, 60 and 10 at clock 100) with days_until_stale 30. -/
def retentionState : ManagerState := { s0 with
  backups := [agedBackup "b5" 95, agedBackup "b40" 60, agedBackup "b90" 10]
  now := 100
  days_until_stale := 30 }

/-- C9: apply_retention_policy keeps a backup exactly when it is
pinned, not stale (now - date ≤ days_until_stale), or the most recent;
it returns the ordered sequence of removed slugs; the most recent
backup is never removed; and on the [5, 40, 90]-day example with
days_until_stale 30 it removes exactly the 40- and 90-day backups. -/
theorem retention_policy_spec :
    (∀ (s : ManagerState) (b : Backup), b ∈ s.backups →
      (b ∈ (apply_retention_policy s).1.backups ↔
        ¬(b.pinned = false ∧ s.days_until_stale < s.now - b.date ∧
          b.date ≠ mostRecentDate s.backups))) ∧
    (∀ s : ManagerState, (apply_retention_policy s).2 =
      (s.backups.filter (retentionRemovable s)).map (fun b => b.slug)) ∧
    (∀ (s : ManagerState) (b : Backup), b ∈ s.backups →
      b.date = mostRecentDate s.backups →
      b ∈ (apply_retention_policy s).1.backups) ∧
    (apply_retention_policy retentionState).2 = ["b40", "b90"] := by
  have htrue : ∀ (s : ManagerState) (b : Backup),
      (retentionRemovable s b = true ↔
        (b.pinned = false ∧ s.days_until_stale < s.now - b.date ∧
          b.date ≠ mostRecentDate s.backups)) := by
    intro s b
    unfold retentionRemovable
    simp [Bool.and_eq_true, Bool.not_eq_true', decide_eq_true_iff, and_assoc]
  have hmem : ∀ (s : ManagerState) (b : Backup), b ∈ s.backups →
      (b ∈ (apply_retention_policy s).1.backups ↔
        ¬(b.pinned = false ∧ s.days_until_stale < s.now - b.date ∧
          b.date ≠ mostRecentDate s.backups)) := by
    intro s b hb
    simp only [apply_retention_policy]
    rw [List.mem_filter]
    simp only [hb, true_and, Bool.not_eq_true']
    rw [Bool.eq_false_iff]
    exact not_congr (htrue s b)
  refine ⟨hmem, fun s => rfl, ?_, rfl⟩
  intro s b hb hdate
  rw [hmem s b hb]
  intro hcon
  exact hcon.2.2 hdate

/-- C9 witness: in the concrete example, the 40-day-old backup fails
the keep-condition and the most recent (5-day-old) backup is kept. -/
theorem retention_policy_spec_witness :
    ((agedBackup "b40" 60 ∈ (apply_retention_policy retentionState).1.backups ↔
      ¬((agedBackup "b40" 60).pinned = false ∧
        retentionState.days_until_stale <
          retentionState.now - (agedBackup "b40" 60).date ∧
        (agedBackup "b40" 60).date ≠ mostRecentDate retentionState.backups))) ∧
    agedBackup "b5" 95 ∈ (apply_retention_policy retentionState).1.backups :=
  ⟨retention_policy_spec.1 retentionState (agedBackup "b40" 60) (by decide),
   retention_policy_spec.2.2.1 retentionState (agedBackup "b5" 95) (by decide)
     (by decide)⟩

/-- C2: a successful creation with type FULL has a manifest recording
the core application state as included, and info on its slug reports
that manifest. -/
theorem full_backup_reports_homeassistant (s : ManagerState)
    (req : CreateRequest) (w : Bool) (s' : ManagerState) (b : Backup)
    (h : create s req w = (s', .ok b)) (ht : req.type = .FULL) :
    b.content.homeassistant = true ∧ info s' b.slug = some b := by
  obtain ⟨-, -, dir, hres, hslug, htype, hha, hloc, hbks, hfiles, hcalls,
    hlock, hsave⟩ := create_ok_spec s req w s' b h
  constructor
  · rw [hha]
    simp [includesHomeAssistant, ht]
  · rw [info, hbks]
    simp [List.find?_cons]

/-- C2 witness. -/
theorem full_backup_reports_homeassistant_witness :
    b0def.content.homeassistant = true ∧
    info (create s0 reqFull true).1 b0def.slug = some b0def :=
  full_backup_reports_homeassistant s0 reqFull true (create s0 reqFull true).1
    b0def rfl rfl

/-- C10: when a creation includes application state, the
application-state backup call receives as its second argument the
database-exclusion decision, which is true exactly when the per-request
flag or the global backups_exclude_database setting is true. -/
theorem exclude_database_decision (s : ManagerState) (req : CreateRequest)
    (w : Bool) (s' : ManagerState) (b : Backup)
    (h : create s req w = (s', .ok b))
    (hha : includesHomeAssistant req = true) :
    s'.haBackupCalls =
      (req.homeassistant_exclude_database || s.backups_exclude_database)
        :: s.haBackupCalls ∧
    ((req.homeassistant_exclude_database || s.backups_exclude_database) = true ↔
      (req.homeassistant_exclude_database = true ∨
        s.backups_exclude_database = true)) := by
  obtain ⟨-, -, dir, hres, hslug, htype, hcha, hloc, hbks, hfiles, hcalls,
    hlock, hsave⟩ := create_ok_spec s req w s' b h
  constructor
  · rw [hcalls, if_pos hha]
  · exact iff_of_eq (Bool.or_eq_true _ _)

/-- C10 witness: the test_api_backup_exclude_database setup with the
global setting on and the per-request flag off. -/
theorem exclude_database_decision_witness :
    ({ s0 with backups_exclude_database := true } : ManagerState).lockHeld =
      false ∧
    (create { s0 with backups_exclude_database := true } reqFull
        true).1.haBackupCalls =
      (reqFull.homeassistant_exclude_database ||
        ({ s0 with backups_exclude_database := true } :
          ManagerState).backups_exclude_database) ::
        ({ s0 with backups_exclude_database := true } :
          ManagerState).haBackupCalls :=
  ⟨rfl,
    (exclude_database_decision { s0 with backups_exclude_database := true }
      reqFull true
      (create { s0 with backups_exclude_database := true } reqFull true).1
      { b0def with homeassistant_exclude_database := true } rfl rfl).1⟩

/-- A successful resolve implies a successful resolveDir with the same
directory (the free-space check only filters errors in). -/
theorem resolve_ok_resolveDir (s : ManagerState) (loc : Option (Option String))
    (dir : Dir) (h : resolve s loc = .ok dir) :
    resolveDir s.mounts s.default_backup_mount loc = .ok dir := by
  unfold resolve at h
  split at h
  · simp at h
  next d hd =>
    split at h
    · simp at h
    · simp only [Except.ok.injEq] at h
      rw [← h]
      exact hd

/-- A named location resolves to that mount's directory. -/
theorem resolveDir_named_inv (mounts : List Mount) (dm : Option String)
    (m : String) (dir : Dir)
    (h : resolveDir mounts dm (some (some m)) = .ok dir) :
    dir = .mountDir m := by
  simp only [resolveDir] at h
  split at h
  · simp only [Except.ok.injEq] at h
    exact h.symm
  · simp at h

/-- An explicit null location resolves to the local default store. -/
theorem resolveDir_null_inv (mounts : List Mount) (dm : Option String)
    (dir : Dir) (h : resolveDir mounts dm (some none) = .ok dir) :
    dir = .localStore := by
  simp only [resolveDir, Except.ok.injEq] at h
  exact h.symm

/-- An omitted location with a default backup mount resolves to that
mount's directory. -/
theorem resolveDir_omitted_some_inv (mounts : List Mount) (dm : Option String)
    (m : String) (dir : Dir) (hd : dm = some m)
    (h : resolveDir mounts dm none = .ok dir) : dir = .mountDir m := by
  subst hd
  simp only [resolveDir, Except.ok.injEq] at h
  exact h.symm

/-- An omitted location without a default backup mount resolves to the
local default store. -/
theorem resolveDir_omitted_none_inv (mounts : List Mount) (dm : Option String)
    (dir : Dir) (hd : dm = none)
    (h : resolveDir mounts dm none = .ok dir) : dir = .localStore := by
  subst hd
  simp only [resolveDir, Except.ok.injEq] at h
  exact h.symm

/-- C1 (amended): for every successful backup creation, the committed
archive file is named by the new backup's slug inside the resolved
directory, where an explicitly named location selects that mount's
directory, an omitted location selects the default_backup_mount's
directory when such a mount is set and the local default store
otherwise, and an explicit null location selects the local default
store (overriding a configured default mount). -/
theorem create_location_resolution (s : ManagerState) (req : CreateRequest)
    (w : Bool) (s' : ManagerState) (b : Backup)
    (h : create s req w = (s', .ok b)) :
    (∀ m, req.location = some (some m) →
      s'.files = (Dir.mountDir m, archiveName b.slug) :: s.files) ∧
    (req.location = some none →
      s'.files = (Dir.localStore, archiveName b.slug) :: s.files) ∧
    (∀ m, req.location = none → s.default_backup_mount = some m →
      s'.files = (Dir.mountDir m, archiveName b.slug) :: s.files) ∧
    (req.location = none → s.default_backup_mount = none →
      s'.files = (Dir.localStore, archiveName b.slug) :: s.files) := by
  obtain ⟨-, -, dir, hres, hslug, -, -, -, -, hfiles, -, -, -⟩ :=
    create_ok_spec s req w s' b h
  rw [← hslug] at hfiles
  refine ⟨?_, ?_, ?_, ?_⟩
  · intro m hm
    rw [hm] at hres
    have hd := resolveDir_named_inv _ _ _ _ (resolve_ok_resolveDir s _ dir hres)
    rwa [hd] at hfiles
  · intro hm
    rw [hm] at hres
    have hd := resolveDir_null_inv _ _ _ (resolve_ok_resolveDir s _ dir hres)
    rwa [hd] at hfiles
  · intro m hm hdm
    rw [hm] at hres
    have hd := resolveDir_omitted_some_inv _ _ m _ hdm
      (resolve_ok_resolveDir s _ dir hres)
    rwa [hd] at hfiles
  · intro hm hdm
    rw [hm] at hres
    have hd := resolveDir_omitted_none_inv _ _ _ hdm
      (resolve_ok_resolveDir s _ dir hres)
    rwa [hd] at hfiles

/-- The full-backup request with an explicit null location, as in
test_backup_to_location's second parametrisation. -/
def reqNull : CreateRequest := { reqFull with location := some none }

/-- The full-backup request naming the mount explicitly, as in
test_backup_to_location's first parametrisation. -/
def reqNamed : CreateRequest :=
  { reqFull with location := some (some "backup_test") }

/-- C1 counterexample: with default_backup_mount set, a creation whose
request gives an explicit null location succeeds but commits its
archive in the local default store, not under the default mount's
directory as the claim demands: the archive is not under the mount. -/
theorem create_null_location_counterexample :
    s0.default_backup_mount = some "backup_test" ∧
    (create s0 reqNull true).2 = .ok { b0def with location := none } ∧
    (create s0 reqNull true).1.files = [(Dir.localStore, archiveName "b0")] ∧
    (Dir.mountDir "backup_test", archiveName "b0") ∉
      (create s0 reqNull true).1.files := by
  refine ⟨rfl, rfl, rfl, ?_⟩
  decide

/-- C1 witness: the explicitly named location of
test_backup_to_location commits the archive under that mount. -/
theorem create_location_resolution_witness :
    (create s0 reqNamed true).1.files =
      (Dir.mountDir "backup_test", archiveName b0def.slug) :: s0.files :=
  (create_location_resolution s0 reqNamed true (create s0 reqNamed true).1
    b0def rfl).1 "backup_test" rfl

/-- C7: every failing create leaves the manager's index, the committed
archive files and the persisted metadata exactly as they were — the
temporary archive path is cleaned up on a streaming failure — and the
typed error is returned to the caller. -/
theorem create_failure_atomic (s : ManagerState) (req : CreateRequest)
    (w : Bool) (s' : ManagerState) (e : BackupError)
    (h : create s req w = (s', .error e)) :
    s'.backups = s.backups ∧ s'.files = s.files ∧
    s'.saveCount = s.saveCount ∧ (create s req w).2 = .error e := by
  obtain ⟨h1, h2, h3, -⟩ := create_err_spec s req w s' e h
  exact ⟨h1, h2, h3, by rw [h]⟩

/-- C7 witness: a creation whose archive streaming fails leaves the
concrete state's index and files untouched and reports WriteFailed. -/
theorem create_failure_atomic_witness :
    (create s0 reqFull false).1.backups = s0.backups ∧
    (create s0 reqFull false).1.files = s0.files ∧
    (create s0 reqFull false).1.saveCount = s0.saveCount ∧
    (create s0 reqFull false).2 = .error .WriteFailed :=
  create_failure_atomic s0 reqFull false (create s0 reqFull false).1
    .WriteFailed rfl

/-- C6: while the job lock is held, any backup or restore request fails
immediately with JobAlreadyInProgress and changes nothing; the lock
flag is restored on every exit path of create and restore; and in the
interleaving where a second creation request arrives while a first one
holds the lock, the second fails with JobAlreadyInProgress and exactly
one archive file has been added afterwards. -/
theorem job_lock_exclusion :
    (∀ (s : ManagerState) (req : CreateRequest) (w : Bool),
      s.lockHeld = true → validSelection req = true →
      create s req w = (s, .error .JobAlreadyInProgress)) ∧
    (∀ (s : ManagerState) (slug : String) (pass : Option String) (xo : Bool),
      s.lockHeld = true →
      restore s slug pass xo = (s, .error .JobAlreadyInProgress)) ∧
    (∀ (s : ManagerState) (req : CreateRequest) (w : Bool),
      (create s req w).1.lockHeld = s.lockHeld) ∧
    (∀ (s : ManagerState) (slug : String) (pass : Option String) (xo : Bool),
      (restore s slug pass xo).1.lockHeld = s.lockHeld) ∧
    (∀ (s : ManagerState) (r1 r2 : CreateRequest) (w : Bool)
      (s' : ManagerState) (b : Backup),
      s.lockHeld = false → validSelection r1 = true →
      validSelection r2 = true → create s r1 w = (s', .ok b) →
      createConcurrent s r1 r2 w = (s', .ok b, .error .JobAlreadyInProgress) ∧
      s'.files.length = s.files.length + 1) := by
  refine ⟨create_locked_fails, restore_locked_fails, create_lockHeld,
    fun s slug pass xo => by rw [restore_state_id], ?_⟩
  intro s r1 r2 w s' b hl hv1 hv2 h
  have hsecond : create { s with lockHeld := true } r2 true =
      ({ s with lockHeld := true }, .error .JobAlreadyInProgress) :=
    create_locked_fails _ r2 true rfl hv2
  have hfirst : createLocked { s with lockHeld := true } r1 w = (s', .ok b) := by
    rw [createLocked_lock_irrel]
    simpa [create, hv1, hl] using h
  constructor
  · simp only [createConcurrent, hsecond]
    rw [hfirst]
  · obtain ⟨-, -, dir, -, -, -, -, -, -, hfiles, -, -, -⟩ :=
      create_ok_spec s r1 w s' b h
    rw [hfiles]
    rfl

/-- C6 witness: two concurrent full-backup creations from the concrete
base state — the second fails with JobAlreadyInProgress and exactly one
archive file exists afterwards. -/
theorem job_lock_exclusion_witness :
    createConcurrent s0 reqFull reqFull true =
      ((create s0 reqFull true).1, .ok b0def, .error .JobAlreadyInProgress) ∧
    (create s0 reqFull true).1.files.length = s0.files.length + 1 :=
  job_lock_exclusion.2.2.2.2 s0 reqFull reqFull true (create s0 reqFull true).1
    b0def rfl rfl rfl rfl

/-- C8 witness: removing the backup created by a concrete successful
run deletes its archive file and index entry; removing a slug absent
from the index fails with SlugNotFound. -/
theorem remove_spec_amended_witness :
    (remove (create s0 reqFull true).1 "b0").2 = .ok () ∧
    (remove (create s0 reqFull true).1 "b0").1.backups =
      (create s0 reqFull true).1.backups.filter (fun x => x.slug != "b0") ∧
    (remove (create s0 reqFull true).1 "b0").1.files =
      (create s0 reqFull true).1.files.erase
        (dirOfLocation b0def.location, archiveName "b0") ∧
    remove s0 "b0" = (s0, .error .SlugNotFound) :=
  have hall := remove_spec_amended.2.1 (create s0 reqFull true).1 "b0" b0def rfl
  ⟨hall.1, hall.2.1, hall.2.2, remove_spec_amended.1 s0 "b0" rfl⟩

end Supervisor
